import Mathlib

/-!
Verification of the roster / leave-resolution engine of `telegram_roster_bot.py`.

The Python source works over Google-Sheets grids.  We embed the pure logic:
a sheet is a total function `Nat → Nat → String` from 1-based (row, column)
to the cell's display value, where `""` stands for an empty cell (gspread
returns `None` for blanks and every use in the source collapses `None` and
`""` through `or ""` / truthiness, so one representation is faithful).
Python strings are Lean `String`s; `str.upper()` is modelled on ASCII by
`pyUpper`, `str.strip()` by `pyStrip`, and the substring test `a in b` by
`hasSubStr`.  Pandas rosters (`Name`, `Duty` columns) are association lists
`List (String × Option String)` with `none` for a `NaN` duty.
-/

/-- ASCII whitespace set of Python's `str.strip`. -/
def wsChar (c : Char) : Bool :=
  c == ' ' || c == '\t' || c == '\n' || c == '\r' || c == '\x0b' || c == '\x0c'

/-- ASCII model of Python's `str.upper` on a single character. -/
def upChar (c : Char) : Char :=
  if 'a' ≤ c && c ≤ 'z' then Char.ofNat (c.toNat - 32) else c

/-- `str.upper()`. -/
def pyUpper (s : String) : String := ⟨s.data.map upChar⟩

/-- Remove leading and trailing whitespace from a character list. -/
def stripList (l : List Char) : List Char :=
  ((l.dropWhile wsChar).reverse.dropWhile wsChar).reverse

/-- `str.strip()`. -/
def pyStrip (s : String) : String := ⟨stripList s.data⟩

/-- Substring containment on character lists (Python's `needle in hay`). -/
def hasSub (n : List Char) : List Char → Bool
  | [] => n.isEmpty
  | c :: t => n.isPrefixOf (c :: t) || hasSub n t

/-- Substring containment on strings (Python's `needle in hay`). -/
def hasSubStr (needle hay : String) : Bool := hasSub needle.data hay.data

/-- Both endpoints of a token are non-whitespace (vacuously for `[]`). -/
def endpointsOk (t : List Char) : Bool :=
  (match t.head? with
   | some c => !wsChar c
   | none => true) &&
  (match t.getLast? with
   | some c => !wsChar c
   | none => true)

/-- Merged-cell rectangle exactly as in the Sheets API metadata consumed by
`LeaveTracker`: zero-based, `end` indices exclusive. -/
structure Merge where
  startRowIndex : Nat
  endRowIndex : Nat
  startColumnIndex : Nat
  endColumnIndex : Nat

/-- State of a constructed `LeaveTracker`: its cached merge rectangles and a
read-only view of the leave sheet's cells (1-based row/column as in gspread's
`sheet.cell(row, col).value`, `""` for an empty cell). -/
structure Tracker where
  merged_ranges : List Merge
  cells : Nat → Nat → String

/-- `self.NAME_COLUMN = 2` (column B of the leave grid). -/
def NAME_COLUMN : Nat := 2

/-- `self.DAY_1_COLUMN = 4` (column D holds day 1). -/
def DAY_1_COLUMN : Int := 4

/-- `self.START_ROW = 6` (first person's row in the leave grid). -/
def START_ROW : Nat := 6

/-- `self.END_ROW = 17` (last person's row in the leave grid). -/
def END_ROW : Nat := 17

/-- `self.LEAVE_TYPES` — the configured absence-reason tokens. -/
def LEAVE_TYPES : List String := ["MC", "LL", "OSL", "COMPASSIONATE LEAVE", "COURSE"]

/-- Duty-slot and external-staff codes of the closed vocabulary (`M1`..`M4`
duty slots, `CPC` external staff), as fixed by the duty-code legend of the
source's parade-state assembly. -/
def DUTY_CODES : List String := ["M1", "M2", "M3", "M4", "CPC"]

/-- `LeaveTracker._is_leave_cell`: a cell counts as leave when it is non-empty
(Python truthiness of the string) and its uppercase contains one of the
`LEAVE_TYPES` tokens as a substring. -/
def is_leave_cell (cell_value : String) : Bool :=
  if cell_value = "" then false
  else LEAVE_TYPES.any (fun leave_type => hasSubStr leave_type (pyUpper cell_value))

/-- The spec-side classification "duty slot or external-staff code": exact
token match after trimming and case normalisation.  Used to express that a
leave result is never one of those codes. -/
def is_duty_or_external (s : String) : Bool :=
  DUTY_CODES.any (fun code => code == pyUpper (pyStrip s))

/-- `LeaveTracker._find_person_row`: first row in `START_ROW..END_ROW` whose
name cell is non-empty and strip-equal to the queried name. -/
def find_person_row (cells : Nat → Nat → String) (name : String) : Option Nat :=
  (List.range' START_ROW (END_ROW + 1 - START_ROW)).find? (fun row =>
    let cell_value := cells row NAME_COLUMN
    cell_value != "" && pyStrip cell_value == pyStrip name)

/-- Loop body of `LeaveTracker.check_leave_on_day`: walk the cached merge
rectangles in order; for the first one whose (1-based, inclusive) row interval
contains `row_idx`, whose day interval contains `day`, and whose cell at
`(row_idx, start_col)` classifies as leave, return the stripped cell value and
the day span. -/
def scanMerges (cells : Nat → Nat → String) (row_idx : Nat) (day : Int) :
    List Merge → Option (String × Int × Int)
  | [] => none
  | merge :: rest =>
    let start_row := merge.startRowIndex + 1
    let end_row := merge.endRowIndex
    let start_col := merge.startColumnIndex + 1
    let end_col := merge.endColumnIndex
    if start_row ≤ row_idx ∧ row_idx ≤ end_row then
      let start_day : Int := (start_col : Int) - (DAY_1_COLUMN - 1)
      let end_day : Int := (end_col : Int) - (DAY_1_COLUMN - 1)
      if start_day ≤ day ∧ day ≤ end_day then
        let cell_value := cells row_idx start_col
        if is_leave_cell cell_value then some (pyStrip cell_value, start_day, end_day)
        else scanMerges cells row_idx day rest
      else scanMerges cells row_idx day rest
    else scanMerges cells row_idx day rest

/-- `LeaveTracker.check_leave_on_day`. -/
def check_leave_on_day (t : Tracker) (row_idx : Nat) (day : Int) :
    Option (String × Int × Int) :=
  scanMerges t.cells row_idx day t.merged_ranges

/-- The spec's day-translation formula for a merge rectangle:
`start_day = start_col - day1_col + 1` with `start_col` the rectangle's
1-based first column and `day1_col = DAY_1_COLUMN`. -/
def spec_start_day (m : Merge) : Int :=
  ((m.startColumnIndex : Int) + 1) - DAY_1_COLUMN + 1

/-- The spec's day-translation formula for the (1-based, inclusive) last
column of a merge rectangle: `end_day = end_col - day1_col + 1`. -/
def spec_end_day (m : Merge) : Int :=
  (m.endColumnIndex : Int) - DAY_1_COLUMN + 1

/-- `LeaveTracker.check_people_on_day`: result dictionary as an association
list.  A name whose row lookup fails Python truthiness (`None`, or row `0`)
is left out of the dictionary entirely. -/
def check_people_on_day (t : Tracker) (names : List String) (day : Int) :
    List (String × Option (String × Int × Int)) :=
  names.filterMap (fun name =>
    match find_person_row t.cells name with
    | none => none
    | some row_idx => if row_idx = 0 then none
                      else some (name, check_leave_on_day t row_idx day))

/-- Names of roster rows whose `Duty` is `NaN` (the spec's "no assignment"
persons), in roster order — line 215 of the source. -/
def nan_duty_names (roster : List (String × Option String)) : List String :=
  (roster.filter (fun p => p.2.isNone)).map Prod.fst

/-- The list of names `update_roster_with_leave_info` actually checks: the
`NaN`-duty names, with the last entry removed when there is more than one
("Remove last entry if it exists (often a summary row)"). -/
def names_to_check (roster : List (String × Option String)) : List String :=
  let ns := nan_duty_names roster
  if ns.length > 1 then ns.dropLast else ns

/-- The annotation written into the `Duty` column for a person on leave:
`f"{leave_reason} ({start_day} {month} - {end_day} {month})"`. -/
def leave_info_str (leave_reason : String) (start_day end_day : Int) (month : String) : String :=
  leave_reason ++ " (" ++ toString start_day ++ " " ++ month ++ " - " ++
    toString end_day ++ " " ++ month ++ ")"

/-- One pass of the update loop applied to a single roster row: the row's
`Duty` is overwritten by each on-leave entry whose name matches
(`roster_df.loc[roster_df['Name'] == name, 'Duty'] = leave_info`). -/
def leaveFold (on_leave : List (String × (String × Int × Int))) (month : String)
    (p : String × Option String) : String × Option String :=
  on_leave.foldl (fun q entry =>
    if q.1 = entry.1 then (q.1, some (leave_info_str entry.2.1 entry.2.2.1 entry.2.2.2 month))
    else q) p

/-- The update loop of `update_roster_with_leave_info` (lines 238-242):
for every on-leave `(name, (reason, start, end))`, set the `Duty` of every
roster row with that `Name`. -/
def apply_leave (roster : List (String × Option String))
    (on_leave : List (String × (String × Int × Int))) (month : String) :
    List (String × Option String) :=
  on_leave.foldl (fun df entry =>
    df.map (fun p =>
      if p.1 = entry.1 then (p.1, some (leave_info_str entry.2.1 entry.2.2.1 entry.2.2.2 month))
      else p)) roster

/-- `{name: result for name, result in results.items() if result is not None}`. -/
def on_leave_entries (results : List (String × Option (String × Int × Int))) :
    List (String × (String × Int × Int)) :=
  results.filterMap (fun p => p.2.map (fun v => (p.1, v)))

/-- `update_roster_with_leave_info`.  The fallible part of its `try` block —
constructing the `LeaveTracker` against the live spreadsheet and reading
cells and merge metadata through it — is abstracted as a `resolver` that
either fails (any raised exception) or returns the `check_people_on_day`
dictionary; the `except` branch returns the roster unchanged. -/
def update_roster_with_leave_info (roster : List (String × Option String)) (month : String)
    (resolver : List String → Except String (List (String × Option (String × Int × Int)))) :
    List (String × Option String) :=
  let ns := names_to_check roster
  if ns.isEmpty then roster
  else
    match resolver ns with
    | Except.error _ => roster
    | Except.ok results => apply_leave roster (on_leave_entries results) month

/-- The non-failing resolver: a successfully constructed tracker running
`check_people_on_day` (lines 228-231). -/
def leave_resolver (t : Tracker) (day : Int) :
    List String → Except String (List (String × Option (String × Int × Int))) :=
  fun names => Except.ok (check_people_on_day t names day)

/-- Names reported as on leave by a resolver run, for the frame statement. -/
def on_leave_names (roster : List (String × Option String))
    (resolver : List String → Except String (List (String × Option (String × Int × Int)))) :
    List String :=
  match resolver (names_to_check roster) with
  | Except.error _ => []
  | Except.ok results => (on_leave_entries results).map Prod.fst

/-- `prepare_roster_data`: slice `df.iloc[5:18, [1, target_date_col]]` of the
full CSV grid (cells `Option String`, `none` = `NaN`) into `(Name, Duty)`
pairs.  Names are modelled as strings (a missing name cell reads `""`). -/
def prepare_roster_data (df : List (List (Option String))) (target_date_col : Nat) :
    List (String × Option String) :=
  ((df.drop 5).take 13).map (fun row =>
    (((row.get? 1).getD none).getD "", (row.get? target_date_col).getD none))

/-! Concrete fixtures used by witness and counterexample theorems. -/

/-- Leave sheet holding `"MC (5 - 8)"` at row 7, column 8. -/
def wCells : Nat → Nat → String :=
  fun r c => if r == 7 && c == 8 then "MC (5 - 8)" else ""

/-- Merge rectangle covering rows 7-8 and days 5-8 (columns 8-11, 1-based). -/
def wMerge : Merge := ⟨6, 8, 7, 11⟩

/-- Tracker over `wCells` with the single rectangle `wMerge`. -/
def wTracker : Tracker := ⟨[wMerge], wCells⟩

/-- Merge rectangle whose row interval 1-2 misses row 7. -/
def wMergeOut : Merge := ⟨0, 2, 7, 11⟩

/-- Leave sheet holding the name `" TAN "` in the name column of row 6. -/
def w4Cells : Nat → Nat → String :=
  fun r c => if r == 6 && c == 2 then " TAN " else ""

/-- Tracker whose leave sheet is entirely empty. -/
def w5Tracker : Tracker := ⟨[], fun _ _ => ""⟩

/-- Roster with two `NaN`-duty rows. -/
def cexRoster : List (String × Option String) := [("A", none), ("B", none)]

/-- Main-grid CSV whose roster window row 5 names `"Z"` with no duty. -/
def wDf : List (List (Option String)) := [[], [], [], [], [], [none, some "Z"]]

/-- Leave sheet naming `"Z"` at row 6 with `"MC"` at row 6, column 5. -/
def w10Cells : Nat → Nat → String :=
  fun r c =>
    if r == 6 && c == 2 then "Z"
    else if r == 6 && c == 5 then "MC" else ""

/-- Merge rectangle covering row 6, days 2-3 (columns 5-6, 1-based). -/
def w10Merge : Merge := ⟨5, 6, 4, 6⟩

/-- Tracker over `w10Cells` with the single rectangle `w10Merge`. -/
def w10Tracker : Tracker := ⟨[w10Merge], w10Cells⟩

/-- Successful resolver over `w10Tracker` for day 2. -/
def w10f : List String → Except String (List (String × Option (String × Int × Int))) :=
  leave_resolver w10Tracker 2

/-! String lemmas: substring containment survives `strip`, and a leave cell is
never a duty-slot or external-staff code. -/

lemma upChar_ws {c : Char} (h : wsChar c = true) : upChar c = c := by
  simp only [wsChar, Bool.or_eq_true, beq_iff_eq] at h
  rcases h with ((((h | h) | h) | h) | h) | h <;> subst h <;> decide

lemma hasSub_iff {n h : List Char} : hasSub n h = true ↔ n <:+: h := by
  induction h with
  | nil => simp [hasSub, List.isEmpty_iff]
  | cons c t ih =>
    rw [hasSub, Bool.or_eq_true, ih, List.infix_cons_iff, List.isPrefixOf_iff_prefix]

lemma infix_drop_left {n : List Char} (hne : n ≠ [])
    (hh : ∀ x, n.head? = some x → wsChar x = false) :
    ∀ (a rest : List Char), (∀ x ∈ a, wsChar x = true) → n <:+: a ++ rest → n <:+: rest := by
  intro a
  induction a with
  | nil => intro rest _ h; simpa using h
  | cons y a ih =>
    intro rest ha h
    obtain ⟨s, t, hst⟩ := h
    cases s with
    | nil =>
      cases n with
      | nil => exact absurd rfl hne
      | cons c m =>
        simp only [List.nil_append, List.cons_append, List.cons.injEq] at hst
        have hc : wsChar c = false := hh c rfl
        have hy : wsChar y = true := ha y (List.mem_cons_self y a)
        rw [hst.1] at hc
        simp [hy] at hc
    | cons z s =>
      simp only [List.cons_append, List.cons.injEq] at hst
      exact ih rest (fun x hx => ha x (List.mem_cons_of_mem y hx)) ⟨s, t, hst.2⟩

lemma infix_drop_right {n : List Char} (hne : n ≠ [])
    (hl : ∀ x, n.getLast? = some x → wsChar x = false) :
    ∀ (rest b : List Char), (∀ x ∈ b, wsChar x = true) → n <:+: rest ++ b → n <:+: rest := by
  intro rest b hb h
  have h1 : n.reverse <:+: b.reverse ++ rest.reverse := by
    have h2 := List.reverse_infix.mpr h
    rwa [List.reverse_append] at h2
  have h3 : n.reverse <:+: rest.reverse := by
    refine infix_drop_left ?_ ?_ b.reverse rest.reverse ?_ h1
    · simpa using hne
    · intro x hx
      rw [List.head?_reverse] at hx
      exact hl x hx
    · intro x hx
      rw [List.mem_reverse] at hx
      exact hb x hx
  exact List.reverse_infix.mp h3

lemma strip_decomp (l : List Char) :
    ∃ a b, l = a ++ (stripList l ++ b) ∧
      (∀ x ∈ a, wsChar x = true) ∧ (∀ x ∈ b, wsChar x = true) := by
  refine ⟨l.takeWhile wsChar, ((l.dropWhile wsChar).reverse.takeWhile wsChar).reverse,
    ?_, ?_, ?_⟩
  · have hd : l.dropWhile wsChar =
        stripList l ++ ((l.dropWhile wsChar).reverse.takeWhile wsChar).reverse := by
      calc l.dropWhile wsChar = (l.dropWhile wsChar).reverse.reverse := by
            rw [List.reverse_reverse]
      _ = ((l.dropWhile wsChar).reverse.takeWhile wsChar ++
            (l.dropWhile wsChar).reverse.dropWhile wsChar).reverse := by
            rw [List.takeWhile_append_dropWhile]
      _ = stripList l ++ ((l.dropWhile wsChar).reverse.takeWhile wsChar).reverse := by
            rw [List.reverse_append]; rfl
    calc l = l.takeWhile wsChar ++ l.dropWhile wsChar :=
          (List.takeWhile_append_dropWhile wsChar l).symm
    _ = l.takeWhile wsChar ++
          (stripList l ++ ((l.dropWhile wsChar).reverse.takeWhile wsChar).reverse) := by
          rw [← hd]
  · intro x hx; exact List.mem_takeWhile_imp hx
  · intro x hx
    rw [List.mem_reverse] at hx
    exact List.mem_takeWhile_imp hx

lemma infix_strip {n : List Char} (hne : n ≠ [])
    (hh : ∀ x, n.head? = some x → wsChar x = false)
    (hl : ∀ x, n.getLast? = some x → wsChar x = false)
    {l : List Char} (h : n <:+: l.map upChar) : n <:+: (stripList l).map upChar := by
  obtain ⟨a, b, hdec, ha, hb⟩ := strip_decomp l
  have hmap : l.map upChar = a.map upChar ++ ((stripList l).map upChar ++ b.map upChar) := by
    conv_lhs => rw [hdec]
    rw [List.map_append, List.map_append]
  rw [hmap] at h
  have hstep : n <:+: (stripList l).map upChar ++ b.map upChar := by
    refine infix_drop_left hne hh (a.map upChar) _ ?_ h
    intro x hx
    rw [List.mem_map] at hx
    obtain ⟨y, hy, hxy⟩ := hx
    have hw := ha y hy
    rw [← hxy, upChar_ws hw]
    exact hw
  refine infix_drop_right hne hl _ (b.map upChar) ?_ hstep
  intro x hx
  rw [List.mem_map] at hx
  obtain ⟨y, hy, hxy⟩ := hx
  have hw := hb y hy
  rw [← hxy, upChar_ws hw]
  exact hw

lemma endpointsOk_head {t : List Char} (h : endpointsOk t = true) :
    ∀ x, t.head? = some x → wsChar x = false := by
  intro x hx
  rw [endpointsOk, Bool.and_eq_true] at h
  have h1 := h.1
  rw [hx] at h1
  simpa using h1

lemma endpointsOk_last {t : List Char} (h : endpointsOk t = true) :
    ∀ x, t.getLast? = some x → wsChar x = false := by
  intro x hx
  rw [endpointsOk, Bool.and_eq_true] at h
  have h1 := h.2
  rw [hx] at h1
  simpa using h1

lemma tok_props :
    ∀ tok ∈ LEAVE_TYPES, tok.data ≠ [] ∧ endpointsOk tok.data = true := by
  decide

lemma is_leave_cell_strip {v : String} (h : is_leave_cell v = true) :
    is_leave_cell (pyStrip v) = true := by
  rw [is_leave_cell] at h
  split at h
  · exact absurd h (by simp)
  rw [List.any_eq_true] at h
  obtain ⟨tok, htok, hsub⟩ := h
  have hp := tok_props tok htok
  have hinf : tok.data <:+: v.data.map upChar := hasSub_iff.mp hsub
  have h2 : tok.data <:+: (stripList v.data).map upChar :=
    infix_strip hp.1 (endpointsOk_head hp.2) (endpointsOk_last hp.2) hinf
  have hne2 : stripList v.data ≠ [] := by
    intro hnil
    rw [hnil] at h2
    simp only [List.map_nil, List.infix_nil] at h2
    exact hp.1 h2
  have hvne : pyStrip v ≠ "" := by
    intro he
    apply hne2
    have hdata : (pyStrip v).data = ("" : String).data := by rw [he]
    simpa [pyStrip] using hdata
  rw [is_leave_cell, if_neg hvne, List.any_eq_true]
  exact ⟨tok, htok, hasSub_iff.mpr h2⟩

lemma codes_no_leave : ∀ u ∈ DUTY_CODES, ∀ t ∈ LEAVE_TYPES, hasSubStr t u = false := by
  decide

lemma leave_not_code {v : String} (h : is_leave_cell v = true) :
    is_duty_or_external v = false := by
  have h2 := is_leave_cell_strip h
  rw [is_leave_cell] at h2
  split at h2
  · exact absurd h2 (by simp)
  rw [List.any_eq_true] at h2
  obtain ⟨tok, htok, hsub⟩ := h2
  rw [is_duty_or_external]
  by_contra hc
  rw [Bool.not_eq_false, List.any_eq_true] at hc
  obtain ⟨code, hcode, hbeq⟩ := hc
  rw [beq_iff_eq] at hbeq
  have hfalse := codes_no_leave code hcode tok htok
  rw [hbeq] at hfalse
  rw [hfalse] at hsub
  exact Bool.false_ne_true hsub

/-! Soundness of the merge-rectangle scan. -/

lemma scanMerges_sound :
    ∀ (ms : List Merge) (cells : Nat → Nat → String) (row_idx : Nat) (day : Int)
      (v : String) (s e : Int),
      scanMerges cells row_idx day ms = some (v, s, e) →
      (s ≤ day ∧ day ≤ e) ∧ is_leave_cell v = true ∧ is_duty_or_external v = false := by
  intro ms
  induction ms with
  | nil =>
    intro cells row_idx day v s e h
    simp [scanMerges] at h
  | cons m rest ih =>
    intro cells row_idx day v s e h
    simp only [scanMerges] at h
    split_ifs at h with h1 h2 h3
    · simp only [Option.some.injEq, Prod.mk.injEq] at h
      obtain ⟨hv, hs, he⟩ := h
      subst hv hs he
      exact ⟨⟨h2.1, h2.2⟩, is_leave_cell_strip h3, leave_not_code (is_leave_cell_strip h3)⟩
    · exact ih cells row_idx day v s e h
    · exact ih cells row_idx day v s e h
    · exact ih cells row_idx day v s e h

lemma scanMerges_formula :
    ∀ (ms : List Merge) (cells : Nat → Nat → String) (row_idx : Nat) (day : Int)
      (v : String) (s e : Int),
      scanMerges cells row_idx day ms = some (v, s, e) →
      ∃ m ∈ ms, (m.startRowIndex + 1 ≤ row_idx ∧ row_idx ≤ m.endRowIndex) ∧
        s = spec_start_day m ∧ e = spec_end_day m := by
  intro ms
  induction ms with
  | nil =>
    intro cells row_idx day v s e h
    simp [scanMerges] at h
  | cons m rest ih =>
    intro cells row_idx day v s e h
    simp only [scanMerges] at h
    split_ifs at h with h1 h2 h3
    · simp only [Option.some.injEq, Prod.mk.injEq] at h
      obtain ⟨hv, hs, he⟩ := h
      subst hs he
      refine ⟨m, List.mem_cons_self m rest, h1, ?_, ?_⟩
      · simp only [spec_start_day, DAY_1_COLUMN]
        push_cast
        ring
      · simp only [spec_end_day, DAY_1_COLUMN]
        ring
    · obtain ⟨m2, hm2, hrow, hse⟩ := ih cells row_idx day v s e h
      exact ⟨m2, List.mem_cons_of_mem m hm2, hrow, hse⟩
    · obtain ⟨m2, hm2, hrow, hse⟩ := ih cells row_idx day v s e h
      exact ⟨m2, List.mem_cons_of_mem m hm2, hrow, hse⟩
    · obtain ⟨m2, hm2, hrow, hse⟩ := ih cells row_idx day v s e h
      exact ⟨m2, List.mem_cons_of_mem m hm2, hrow, hse⟩

/-- Claim C1: for every row index and target day, `check_leave_on_day` returns
either `none` or a triple `(value, start_day, end_day)` with
`start_day ≤ day ≤ end_day` whose value classifies as an absence reason (its
uppercase contains one of the configured leave tokens) and is never a
duty-slot or external-staff code. -/
theorem leave_span_resolver_sound (t : Tracker) (row_idx : Nat) (day : Int)
    (v : String) (s e : Int)
    (h : check_leave_on_day t row_idx day = some (v, s, e)) :
    (s ≤ day ∧ day ≤ e) ∧ is_leave_cell v = true ∧ is_duty_or_external v = false :=
  scanMerges_sound t.merged_ranges t.cells row_idx day v s e h

theorem leave_span_resolver_sound_witness :
    ((5 : Int) ≤ 6 ∧ (6 : Int) ≤ 8) ∧
      is_leave_cell "MC (5 - 8)" = true ∧ is_duty_or_external "MC (5 - 8)" = false :=
  leave_span_resolver_sound wTracker 7 6 "MC (5 - 8)" 5 8 (by decide)

/-- Claim C2: a merge rectangle is considered only when its (1-based,
inclusive) row interval contains the person's row, and any returned day span
obeys the spec formula `start_day = start_col - day1_col + 1`,
`end_day = end_col - day1_col + 1` with `day1_col = DAY_1_COLUMN`. -/
theorem merge_day_translation (cells : Nat → Nat → String) (row_idx : Nat) (day : Int)
    (m : Merge) (rest : List Merge) :
    (¬ (m.startRowIndex + 1 ≤ row_idx ∧ row_idx ≤ m.endRowIndex) →
      scanMerges cells row_idx day (m :: rest) = scanMerges cells row_idx day rest) ∧
    (∀ v s e, scanMerges cells row_idx day (m :: rest) = some (v, s, e) →
      ∃ m2 ∈ m :: rest, (m2.startRowIndex + 1 ≤ row_idx ∧ row_idx ≤ m2.endRowIndex) ∧
        s = spec_start_day m2 ∧ e = spec_end_day m2) := by
  constructor
  · intro hrow
    simp only [scanMerges]
    rw [if_neg hrow]
  · intro v s e h
    exact scanMerges_formula (m :: rest) cells row_idx day v s e h

theorem merge_day_translation_witness :
    (scanMerges wCells 7 6 [wMergeOut] = scanMerges wCells 7 6 []) ∧
    (∃ m2 ∈ [wMerge], (m2.startRowIndex + 1 ≤ 7 ∧ 7 ≤ m2.endRowIndex) ∧
      (5 : Int) = spec_start_day m2 ∧ (8 : Int) = spec_end_day m2) :=
  ⟨(merge_day_translation wCells 7 6 wMergeOut []).1 (by decide),
   (merge_day_translation wCells 7 6 wMerge []).2 "MC (5 - 8)" 5 8 (by decide)⟩

/-! The update loop as a single map, and its frame properties. -/

lemma leaveFold_cons (entry : String × (String × Int × Int))
    (ol : List (String × (String × Int × Int))) (month : String) (p : String × Option String) :
    leaveFold (entry :: ol) month p =
      leaveFold ol month
        (if p.1 = entry.1 then
          (p.1, some (leave_info_str entry.2.1 entry.2.2.1 entry.2.2.2 month))
         else p) := rfl

lemma apply_leave_eq_map (roster : List (String × Option String))
    (on_leave : List (String × (String × Int × Int))) (month : String) :
    apply_leave roster on_leave month = roster.map (leaveFold on_leave month) := by
  induction on_leave generalizing roster with
  | nil =>
    simp only [apply_leave, List.foldl_nil]
    rw [show leaveFold [] month = fun p => p from rfl, List.map_id']
  | cons entry ol ih =>
    have hstep : apply_leave roster (entry :: ol) month =
        apply_leave (roster.map (fun p =>
          if p.1 = entry.1 then
            (p.1, some (leave_info_str entry.2.1 entry.2.2.1 entry.2.2.2 month))
          else p)) ol month := rfl
    rw [hstep, ih, List.map_map]
    exact List.map_congr_left (fun p _ => (leaveFold_cons entry ol month p).symm)

lemma leaveFold_fst (ol : List (String × (String × Int × Int))) (month : String) :
    ∀ p, (leaveFold ol month p).1 = p.1 := by
  induction ol with
  | nil => intro p; rfl
  | cons entry ol ih =>
    intro p
    rw [leaveFold_cons, ih]
    split <;> rfl

lemma leaveFold_skip (ol : List (String × (String × Int × Int))) (month : String) :
    ∀ p, (∀ q ∈ ol, p.1 ≠ q.1) → leaveFold ol month p = p := by
  induction ol with
  | nil => intro p _; rfl
  | cons entry ol ih =>
    intro p hp
    rw [leaveFold_cons, if_neg (hp entry (List.mem_cons_self entry ol))]
    exact ih p (fun q hq => hp q (List.mem_cons_of_mem entry hq))

lemma update_frame_aux (roster : List (String × Option String)) (month : String)
    (resolver : List String → Except String (List (String × Option (String × Int × Int)))) :
    ((update_roster_with_leave_info roster month resolver).map Prod.fst =
        roster.map Prod.fst) ∧
    (∀ i, (update_roster_with_leave_info roster month resolver).get? i ≠ roster.get? i →
      ∃ p, roster.get? i = some p ∧ p.1 ∈ on_leave_names roster resolver) := by
  by_cases hns : (names_to_check roster).isEmpty
  · rw [show update_roster_with_leave_info roster month resolver = roster from by
      simp [update_roster_with_leave_info, hns]]
    exact ⟨rfl, fun i hi => absurd rfl hi⟩
  · cases hf : resolver (names_to_check roster) with
    | error err =>
      rw [show update_roster_with_leave_info roster month resolver = roster from by
        simp [update_roster_with_leave_info, hns, hf]]
      exact ⟨rfl, fun i hi => absurd rfl hi⟩
    | ok results =>
      have hupd : update_roster_with_leave_info roster month resolver =
          apply_leave roster (on_leave_entries results) month := by
        simp [update_roster_with_leave_info, hns, hf]
      have hnames : on_leave_names roster resolver =
          (on_leave_entries results).map Prod.fst := by
        rw [on_leave_names, hf]
      constructor
      · rw [hupd, apply_leave_eq_map, List.map_map]
        exact List.map_congr_left (fun p _ => leaveFold_fst (on_leave_entries results) month p)
      · intro i hi
        rw [hupd, apply_leave_eq_map, List.get?_map] at hi
        cases hr : roster.get? i with
        | none => rw [hr] at hi; exact absurd rfl hi
        | some p =>
          rw [hr, Option.map_some'] at hi
          refine ⟨p, rfl, ?_⟩
          rw [hnames]
          by_contra hmem
          apply hi
          rw [leaveFold_skip (on_leave_entries results) month p]
          intro q hq hpq
          exact hmem (List.mem_map.mpr ⟨q, hq, hpq.symm⟩)

lemma not_found_not_in_check (t : Tracker) (name : String) (day : Int)
    (h : find_person_row t.cells name = none) :
    ∀ (names : List String) (v : Option (String × Int × Int)),
      (name, v) ∉ check_people_on_day t names day := by
  intro names v hmem
  rw [check_people_on_day, List.mem_filterMap] at hmem
  obtain ⟨a, _, hfa⟩ := hmem
  cases hfind : find_person_row t.cells a with
  | none => rw [hfind] at hfa; simp at hfa
  | some r =>
    rw [hfind] at hfa
    by_cases hr : r = 0
    · simp [hr] at hfa
    · simp only [hr, if_false, Option.some.injEq, Prod.mk.injEq] at hfa
      rw [hfa.1] at hfind
      rw [h] at hfind
      exact Option.noConfusion hfind

/-- Claim C3 (amended): every checked name is a `NaN`-duty person (no person
with an explicit duty code is ever checked), and every `NaN`-duty person is
checked except the final `NaN`-duty entry, which is dropped as a presumed
summary row whenever there is more than one. -/
theorem names_to_check_amended (roster : List (String × Option String)) :
    (∀ n ∈ names_to_check roster, (n, (none : Option String)) ∈ roster) ∧
    (∀ n ∈ (nan_duty_names roster).dropLast, n ∈ names_to_check roster) ∧
    ((nan_duty_names roster).length ≤ 1 → names_to_check roster = nan_duty_names roster) := by
  refine ⟨?_, ?_, ?_⟩
  · intro n hn
    have hn2 : n ∈ nan_duty_names roster := by
      simp only [names_to_check] at hn
      split at hn
      · exact List.dropLast_subset _ hn
      · exact hn
    rw [nan_duty_names, List.mem_map] at hn2
    obtain ⟨p, hp, hpn⟩ := hn2
    rw [List.mem_filter] at hp
    obtain ⟨p1, p2⟩ := p
    have hd : p2 = none := by simpa using hp.2
    rw [show (p1, p2).fst = p1 from rfl] at hpn
    rw [← hpn, ← hd]
    exact hp.1
  · intro n hn
    simp only [names_to_check]
    split
    · exact hn
    · exact List.dropLast_subset _ hn
  · intro hlen
    simp only [names_to_check]
    rw [if_neg (by omega)]

/-- Claim C3 counterexample: `"B"` has a `NaN` duty in `cexRoster` but is not
among the names checked against the leave grid, so "every such person is
checked" fails on the code. -/
theorem names_to_check_cex :
    ("B", (none : Option String)) ∈ cexRoster ∧ "B" ∉ names_to_check cexRoster := by
  decide

theorem names_to_check_amended_witness :
    ("A", (none : Option String)) ∈ cexRoster :=
  (names_to_check_amended cexRoster).1 "A" (by decide)

/-- Claim C4 (amended): a queried name joins a leave-grid row exactly when
some row in `START_ROW..END_ROW` has a non-empty name cell that equals the
queried name after trimming whitespace; the comparison is case-sensitive. -/
theorem find_person_row_trim_exact (cells : Nat → Nat → String) (name : String) :
    (find_person_row cells name).isSome ↔
      ∃ r, START_ROW ≤ r ∧ r ≤ END_ROW ∧ cells r NAME_COLUMN ≠ "" ∧
        pyStrip (cells r NAME_COLUMN) = pyStrip name := by
  rw [find_person_row, List.find?_isSome]
  constructor
  · rintro ⟨x, hx, hp⟩
    rw [List.mem_range'] at hx
    obtain ⟨i, hi, hxi⟩ := hx
    simp only [Bool.and_eq_true, bne_iff_ne, beq_iff_eq] at hp
    refine ⟨x, ?_, ?_, hp.1, hp.2⟩
    · simp only [START_ROW, END_ROW] at hxi hi ⊢
      omega
    · simp only [START_ROW, END_ROW] at hxi hi ⊢
      omega
  · rintro ⟨r, hr1, hr2, hne, heq⟩
    refine ⟨r, ?_, ?_⟩
    · rw [List.mem_range']
      refine ⟨r - START_ROW, ?_, ?_⟩
      · simp only [START_ROW, END_ROW] at hr1 hr2 ⊢
        omega
      · simp only [START_ROW] at hr1 ⊢
        omega
    · simp only [Bool.and_eq_true, bne_iff_ne, beq_iff_eq]
      exact ⟨hne, heq⟩

/-- Claim C4 counterexample: `" TAN "` (leave grid) and `"tan"` (query) are
equal after trimming and case normalisation, yet the lookup finds nothing —
the code's comparison never normalises case. -/
theorem find_person_row_case_cex :
    pyUpper (pyStrip " TAN ") = pyUpper (pyStrip "tan") ∧
      find_person_row w4Cells "tan" = none := by
  decide

theorem find_person_row_trim_exact_witness :
    (find_person_row w4Cells "TAN").isSome :=
  (find_person_row_trim_exact w4Cells "TAN").mpr
    ⟨6, by decide, by decide, by decide, by decide⟩

/-- Claim C5: a queried name absent from the leave grid's name column yields
no entry in the `check_people_on_day` dictionary (treated as "no leave
found"), and the person's roster duty entry passes through
`update_roster_with_leave_info` unchanged. -/
theorem person_not_found_no_leave (t : Tracker) (name : String) (day : Int)
    (h : find_person_row t.cells name = none) :
    (∀ (names : List String) (v : Option (String × Int × Int)),
        (name, v) ∉ check_people_on_day t names day) ∧
    (∀ (roster : List (String × Option String)) (month : String) (i : Nat)
        (p : String × Option String),
        roster.get? i = some p → p.1 = name →
        (update_roster_with_leave_info roster month (leave_resolver t day)).get? i = some p) := by
  refine ⟨not_found_not_in_check t name day h, ?_⟩
  intro roster month i p hp hpname
  by_cases hns : (names_to_check roster).isEmpty
  · rw [show update_roster_with_leave_info roster month (leave_resolver t day) = roster from by
      simp [update_roster_with_leave_info, hns]]
    exact hp
  · have hupd : update_roster_with_leave_info roster month (leave_resolver t day) =
        apply_leave roster
          (on_leave_entries (check_people_on_day t (names_to_check roster) day)) month := by
      simp [update_roster_with_leave_info, leave_resolver, hns]
    rw [hupd, apply_leave_eq_map, List.get?_map, hp, Option.map_some']
    have hskip :
        leaveFold (on_leave_entries (check_people_on_day t (names_to_check roster) day))
          month p = p := by
      apply leaveFold_skip
      intro q hq hpq
      rw [on_leave_entries, List.mem_filterMap] at hq
      obtain ⟨⟨pn, pro⟩, hpr, hmap⟩ := hq
      cases hro : pro with
      | none => rw [hro] at hmap; simp at hmap
      | some val =>
        rw [hro] at hmap
        simp only [Option.map_some', Option.some.injEq] at hmap
        have hqn : q.1 = pn := by rw [← hmap]
        have hn : pn = name := by rw [← hqn, ← hpq, hpname]
        rw [hro] at hpr
        rw [hn] at hpr
        exact not_found_not_in_check t name day h (names_to_check roster) (some val) hpr
    rw [hskip]

theorem person_not_found_no_leave_witness :
    (("Z", (none : Option (String × Int × Int))) ∉ check_people_on_day w5Tracker ["Z"] 6) ∧
    (update_roster_with_leave_info [("Z", (none : Option String))] "OCTOBER"
        (leave_resolver w5Tracker 6)).get? 0 = some ("Z", none) :=
  ⟨(person_not_found_no_leave w5Tracker "Z" 6 (by decide)).1 ["Z"] none,
   (person_not_found_no_leave w5Tracker "Z" 6 (by decide)).2
     [("Z", none)] "OCTOBER" 0 ("Z", none) rfl rfl⟩

/-- Claim C6: if the leave resolver (tracker construction, grid access or
merge-metadata handling) fails with any exception, the update is caught at
the boundary and the roster is returned without leave annotations. -/
theorem leave_failure_returns_roster (roster : List (String × Option String)) (month : String)
    (resolver : List String → Except String (List (String × Option (String × Int × Int))))
    (err : String) (h : resolver (names_to_check roster) = Except.error err) :
    update_roster_with_leave_info roster month resolver = roster := by
  by_cases hns : (names_to_check roster).isEmpty
  · simp [update_roster_with_leave_info, hns]
  · simp [update_roster_with_leave_info, hns, h]

theorem leave_failure_returns_roster_witness :
    update_roster_with_leave_info [("A", (none : Option String))] "OCTOBER"
      (fun _ => Except.error "boom") = [("A", none)] :=
  leave_failure_returns_roster [("A", none)] "OCTOBER" (fun _ => Except.error "boom") "boom" rfl

/-- Claim C7: the absence-reason classifier `_is_leave_cell` is total and
case-insensitive: it accepts exactly the strings whose uppercase contains one
of the configured leave tokens as a substring (so `"MC (5 – 8)"` still
classifies as MC), and empty or blank input classifies as no assignment. -/
theorem is_leave_cell_total :
    (∀ s : String, is_leave_cell s = true ↔
      ∃ leave_type ∈ LEAVE_TYPES, hasSubStr leave_type (pyUpper s) = true) ∧
    is_leave_cell "" = false ∧ is_leave_cell "   " = false ∧
    is_leave_cell "MC (5 – 8)" = true ∧ is_leave_cell "mc (5 - 8)" = true := by
  refine ⟨?_, by decide, by decide, by decide, by decide⟩
  intro s
  rw [is_leave_cell]
  split
  · rename_i hs
    subst hs
    constructor
    · intro hfalse
      exact absurd hfalse (by simp)
    · rintro ⟨tok, htok, hsub⟩
      have hp := tok_props tok htok
      have h2 : tok.data <:+: (pyUpper "").data := hasSub_iff.mp hsub
      rw [show (pyUpper "").data = [] from rfl, List.infix_nil] at h2
      exact (hp.1 h2).elim
  · simp [List.any_eq_true]

theorem is_leave_cell_total_witness : is_leave_cell "OSL" = true :=
  (is_leave_cell_total.1 "OSL").mpr ⟨"OSL", by decide, by decide⟩

/-- Claim C10: the leave update touches only `Duty` values of rows whose
person was resolved as on leave: all `Name` values and every other row of the
prepared roster slice come back unchanged (the full grid dataframe is
untouched — `prepare_roster_data` models the `.copy()` slice as a fresh
value). -/
theorem update_roster_frame (df : List (List (Option String))) (target_date_col : Nat)
    (month : String)
    (resolver : List String → Except String (List (String × Option (String × Int × Int)))) :
    ((update_roster_with_leave_info (prepare_roster_data df target_date_col) month
        resolver).map Prod.fst = (prepare_roster_data df target_date_col).map Prod.fst) ∧
    (∀ i, (update_roster_with_leave_info (prepare_roster_data df target_date_col) month
          resolver).get? i ≠ (prepare_roster_data df target_date_col).get? i →
      ∃ p, (prepare_roster_data df target_date_col).get? i = some p ∧
        p.1 ∈ on_leave_names (prepare_roster_data df target_date_col) resolver) :=
  update_frame_aux (prepare_roster_data df target_date_col) month resolver

theorem update_roster_frame_witness :
    ∃ p, (prepare_roster_data wDf 3).get? 0 = some p ∧
      p.1 ∈ on_leave_names (prepare_roster_data wDf 3) w10f :=
  (update_roster_frame wDf 3 "OCTOBER" w10f).2 0 (by decide)
